import Mathlib

/-!
Verification of the financial aggregation core of the ai-financial-advisor
repository (data_processing/data_processor.py, pipeline/__init__.py,
pipeline/dummy.py, data_extraction/rds_connector.py), as a shallow embedding
in Lean 4.

Conventions of the embedding:
* Python scalar values that flow through pandas columns are modelled by
  `PyVal` (null/NaN, a number as an exact rational, a string, a date, a
  parsed JSON-style mapping from string keys to integer quantities).
* Dates are modelled as a pair of coordinates: an epoch-day ordinal (used
  by day arithmetic such as `(due - bill).dt.days`) and an absolute
  year-month index (used by `%Y-%m` bucketing).  String-to-date parsing is
  not modelled; modelled inputs carry dates or null (NaT).
* `json.loads` is modelled on the subset of JSON the `product_sales`
  payload uses: a flat object with string keys and integer values, or a
  bare integer; the model is strict (whole-string, double quotes only),
  as the real parser is.
* IEEE float division in the `avg_price_per_item` computation is modelled
  by `PFloat` with explicit `inf`/`-inf`/`nan` results, matching the
  `replace([inf, -inf], 0).fillna(0)` chain in the source.
* An uncaught Python exception is modelled by `Option.none` at the function
  rank where it would escape.
-/

namespace FinAdvisor

/-- Absolute date model: `ord` is the epoch-day ordinal, `ym` the absolute
year-month index (year*12+month).  Both coordinates are carried explicitly
so that day arithmetic and month bucketing need no calendar computation. -/
structure PyDate where
  ord : Int
  ym : Int
deriving DecidableEq, Repr

/-- A Python value as it appears in the pandas columns the core touches. -/
inductive PyVal where
  | none
  | num (q : ℚ)
  | str (s : String)
  | date (d : PyDate)
  | dict (m : List (String × Int))
deriving DecidableEq, Repr

/-- The single-quote character, by code point. -/
def squoteChar : Char := Char.ofNat 39

/-- The double-quote character, by code point. -/
def dquoteChar : Char := Char.ofNat 34

/-- JSON insignificant whitespace: space, tab, line feed, carriage return. -/
def wsChars : List Char := [Char.ofNat 32, Char.ofNat 9, Char.ofNat 10, Char.ofNat 13]

/-- Drop leading JSON whitespace. -/
def skipWs : List Char → List Char
  | [] => []
  | c :: cs => if c ∈ wsChars then skipWs cs else c :: cs

/-- Consume leading decimal digits, accumulating their value. -/
def parseDigitsAux : List Char → Nat → Nat × List Char
  | [], acc => (acc, [])
  | c :: cs, acc =>
    if c.isDigit then parseDigitsAux cs (acc * 10 + (c.toNat - 48)) else (acc, c :: cs)

/-- Parse a JSON integer token (optional minus sign, then digits). -/
def parseIntTok : List Char → Option (Int × List Char)
  | [] => Option.none
  | c :: cs =>
    if c = Char.ofNat 45 then
      match cs with
      | [] => Option.none
      | d :: ds =>
        if d.isDigit then
          let (n, rest) := parseDigitsAux (d :: ds) 0
          some (-(n : Int), rest)
        else Option.none
    else if c.isDigit then
      let (n, rest) := parseDigitsAux (c :: cs) 0
      some ((n : Int), rest)
    else Option.none

/-- Parse a double-quoted JSON string literal (no escape sequences, which the
product-sales payload never contains). -/
def parseStrLitAux : List Char → List Char → Option (String × List Char)
  | [], _ => Option.none
  | c :: cs, acc =>
    if c = dquoteChar then some (String.mk acc.reverse, cs) else parseStrLitAux cs (c :: acc)

/-- Parse a string literal starting at an opening double quote. -/
def parseStrLit : List Char → Option (String × List Char)
  | [] => Option.none
  | c :: cs => if c = dquoteChar then parseStrLitAux cs [] else Option.none

/-- Insert a key/value pair as a Python dict would: an existing key keeps its
position and takes the new value, a new key appends. -/
def upsert : List (String × Int) → String → Int → List (String × Int)
  | [], k, v => [(k, v)]
  | (k0, v0) :: rest, k, v =>
    if k0 = k then (k0, v) :: rest else (k0, v0) :: upsert rest k v

/-- Rebuild an association list with Python-dict duplicate-key semantics
(first insertion position, last value wins). -/
def dedupKeys (l : List (String × Int)) : List (String × Int) :=
  l.foldl (fun acc kv => upsert acc kv.1 kv.2) []

/-- Parse the members of a JSON object after the opening brace, returning the
key/value pairs and the remainder after the closing brace.  `fuel` bounds the
recursion by the input length. -/
def parseMembers : Nat → List Char → Option (List (String × Int) × List Char)
  | 0, _ => Option.none
  | fuel + 1, cs =>
    match parseStrLit (skipWs cs) with
    | Option.none => Option.none
    | some (k, cs1) =>
      match skipWs cs1 with
      | c :: cs2 =>
        if c = Char.ofNat 58 then
          match parseIntTok (skipWs cs2) with
          | Option.none => Option.none
          | some (v, cs3) =>
            match skipWs cs3 with
            | c2 :: cs4 =>
              if c2 = Char.ofNat 44 then
                match parseMembers fuel cs4 with
                | some (rest, cs5) => some ((k, v) :: rest, cs5)
                | Option.none => Option.none
              else if c2 = Char.ofNat 125 then some ([(k, v)], cs4)
              else Option.none
            | [] => Option.none
        else Option.none
      | [] => Option.none

/-- Model of `json.loads` on the subset the `product_sales` payload uses: a
flat object with string keys and integer values, or a bare integer.  Strict:
the whole input must be consumed, and only double quotes delimit strings. -/
def jsonLoads (s : String) : Option PyVal :=
  match skipWs s.toList with
  | [] => Option.none
  | c :: cs =>
    if c = Char.ofNat 123 then
      match skipWs cs with
      | c2 :: cs2 =>
        if c2 = Char.ofNat 125 then
          if (skipWs cs2).isEmpty then some (PyVal.dict []) else Option.none
        else
          match parseMembers (s.length + 1) (c2 :: cs2) with
          | some (m, rest) =>
            if (skipWs rest).isEmpty then some (PyVal.dict (dedupKeys m)) else Option.none
          | Option.none => Option.none
      | [] => Option.none
    else
      match parseIntTok (c :: cs) with
      | some (n, rest) =>
        if (skipWs rest).isEmpty then some (PyVal.num (n : ℚ)) else Option.none
      | Option.none => Option.none

/-- `value.replace("'", '"')`: replace every single quote by a double quote. -/
def replaceSquote (s : String) : String :=
  String.mk (s.toList.map (fun c => if c = squoteChar then dquoteChar else c))

/-- `parse_product_sales` from `DataProcessor.process_sales_data`
(data_processor.py lines 114-125): a dict is returned as-is; a string is
parsed as strict JSON, retried after single-to-double quote replacement,
and on any further failure the fallthrough returns `{}`; every other value
returns `{}`. -/
def parse_product_sales (v : PyVal) : PyVal :=
  match v with
  | PyVal.dict m => PyVal.dict m
  | PyVal.str s =>
    match jsonLoads s with
    | some j => j
    | Option.none =>
      match jsonLoads (replaceSquote s) with
      | some j => j
      | Option.none => PyVal.dict []
  | _ => PyVal.dict []

example : jsonLoads "\x7b\x2212\x22: 3, \x227\x22: 1\x7d" = some (PyVal.dict [("12", 3), ("7", 1)]) := by decide

/-! ### Scalar coercions (`pd.to_numeric(errors='coerce').fillna(0)`,
`pd.to_datetime(errors='coerce')`) -/

/-- Digits after a decimal point, accumulated at decreasing scale. -/
def fracAux : List Char → ℚ → ℚ → Option ℚ
  | [], acc, _ => some acc
  | c :: cs, acc, scale =>
    if c.isDigit then fracAux cs (acc + scale * ((c.toNat - 48 : Nat) : ℚ)) (scale / 10)
    else Option.none

/-- An unsigned decimal numeral, with an optional fractional part. -/
def parseNumCore : List Char → Option ℚ
  | [] => Option.none
  | c :: cs =>
    if c.isDigit then
      let (n, rest) := parseDigitsAux (c :: cs) 0
      match rest with
      | [] => some ((n : ℚ))
      | r :: rs => if r = Char.ofNat 46 then fracAux rs ((n : ℚ)) (1 / 10) else Option.none
    else Option.none

/-- A decimal numeral string with optional sign, as `pd.to_numeric` accepts. -/
def parseNumStr (s : String) : Option ℚ :=
  match s.toList with
  | [] => Option.none
  | c :: cs =>
    if c = Char.ofNat 45 then (parseNumCore cs).map (fun q => -q)
    else if c = Char.ofNat 43 then parseNumCore cs
    else parseNumCore (c :: cs)

/-- `pd.to_numeric(·, errors='coerce').fillna(0)` on one cell: numbers pass
through, numeral strings parse, everything else coerces to NaN and is then
filled with 0. -/
def toNumericFill0 (v : PyVal) : ℚ :=
  match v with
  | PyVal.num q => q
  | PyVal.str s => (parseNumStr s).getD 0
  | _ => 0

/-- `pd.to_datetime(·, errors='coerce')` on one cell; `Option.none` is NaT. -/
def toDatetime : PyVal → Option PyDate
  | PyVal.date d => some d
  | _ => Option.none

/-! ### Case-insensitive substring containment
(`Series.str.contains(pat, case=False)` with a literal pattern) -/

/-- Boolean list-prefix test. -/
def isPrefixList : List Char → List Char → Bool
  | [], _ => true
  | _ :: _, [] => false
  | a :: as, b :: bs => a = b && isPrefixList as bs

/-- Boolean list-infix test: the needle is a prefix of some suffix. -/
def isInfixList (needle hay : List Char) : Bool :=
  (List.range (hay.length + 1)).any (fun i => isPrefixList needle (hay.drop i))

/-- Lower-cased character list of a string. -/
def lowerChars (s : String) : List Char := s.toList.map Char.toLower

/-- `Series.str.contains(pat, case=False)` for a literal (regex-free) pattern. -/
def containsCI (hay pat : String) : Bool := isInfixList (lowerChars pat) (lowerChars hay)

/-! ### Expense processing (`DataProcessor.process_expenses_data`) -/

/-- A raw expense record as extracted (`type`, `amount`, `bill_date`,
`due_date`); the `type` column is textual in the schema. -/
structure ExpRow where
  type : String
  amount : PyVal
  bill_date : PyVal
  due_date : PyVal
deriving DecidableEq, Repr

/-- An expense record after the coercion and feature steps of
`process_expenses_data` (lines 24-37). -/
structure NormExpRow where
  type : String
  amount : ℚ
  bill_date : Option PyDate
  due_date : Option PyDate
  days_until_due : Int
  is_utility : Bool
deriving DecidableEq, Repr

/-- `(due_date - bill_date).dt.days` followed by `.fillna(0).astype(int)`:
a NaT on either side yields NaN, filled with 0. -/
def daysUntilDue (bill due : Option PyDate) : Int :=
  match bill, due with
  | some b, some d => d.ord - b.ord
  | _, _ => 0

/-- The per-row effect of lines 24-37 of `process_expenses_data`: coerce
`amount` and both dates, derive `days_until_due` and `is_utility`. -/
def normalizeExpRow (r : ExpRow) : NormExpRow :=
  let b := toDatetime r.bill_date
  let d := toDatetime r.due_date
  { type := r.type
    amount := toNumericFill0 r.amount
    bill_date := b
    due_date := d
    days_until_due := daysUntilDue b d
    is_utility := ! containsCI r.type "Bakery" }

/-- A normalized expense record viewed again as a raw record (the dataframe
is mutated in place, so the processed frame can reenter the processor). -/
def injectNorm (r : NormExpRow) : ExpRow :=
  { type := r.type
    amount := PyVal.num r.amount
    bill_date := match r.bill_date with | some d => PyVal.date d | Option.none => PyVal.none
    due_date := match r.due_date with | some d => PyVal.date d | Option.none => PyVal.none }

/-- `type == 'Rent'`. -/
def isRent (r : NormExpRow) : Bool := r.type = "Rent"

/-- `type == 'Electricity'`. -/
def isElectricity (r : NormExpRow) : Bool := r.type = "Electricity"

/-- `type == 'Water'`. -/
def isWater (r : NormExpRow) : Bool := r.type = "Water"

/-- `type.str.contains('Bakery - ', case=False)`. -/
def isIngredients (r : NormExpRow) : Bool := containsCI r.type "Bakery - "

/-- `type.isin(['Rent', 'Electricity', 'Water'])`. -/
def inRentElecWater (t : String) : Bool := t = "Rent" || t = "Electricity" || t = "Water"

/-- `~isin(['Rent','Electricity','Water']) & ~contains('Bakery', case=False)`. -/
def isOther (r : NormExpRow) : Bool := !inRentElecWater r.type && !containsCI r.type "Bakery"

/-- `type.isin(['Advertising', 'Marketing'])`. -/
def isMarketing (r : NormExpRow) : Bool := r.type = "Advertising" || r.type = "Marketing"

/-- `df[df[p]]['amount'].sum()`: the amount total over rows satisfying `p`. -/
def sumWhere (p : NormExpRow → Bool) (rows : List NormExpRow) : ℚ :=
  ((rows.filter p).map NormExpRow.amount).sum

/-- `df['amount'].sum()` over all rows. -/
def sumAmounts (rows : List NormExpRow) : ℚ := (rows.map NormExpRow.amount).sum

/-- The `categorized_expenses` dict of `process_expenses_data` (lines 41-48). -/
structure CategorizedExpenses where
  total_rent : ℚ
  total_electricity : ℚ
  total_water : ℚ
  total_ingredients : ℚ
  total_other : ℚ
  total_salary : ℚ
deriving DecidableEq, Repr

/-- Lines 41-48 of `process_expenses_data`. -/
def categorizedExpenses (rows : List NormExpRow) : CategorizedExpenses :=
  { total_rent := sumWhere isRent rows
    total_electricity := sumWhere isElectricity rows
    total_water := sumWhere isWater rows
    total_ingredients := sumWhere isIngredients rows
    total_other := sumWhere isOther rows
    total_salary := 0 }

/-- The sum of the six flat category totals. -/
def sumCategoryTotals (c : CategorizedExpenses) : ℚ :=
  c.total_rent + c.total_electricity + c.total_water + c.total_ingredients +
    c.total_other + c.total_salary

/-- Ascending insertion into a sorted list of month keys. -/
def insertAsc (x : Int) : List Int → List Int
  | [] => [x]
  | y :: ys => if x ≤ y then x :: y :: ys else y :: insertAsc x ys

/-- Ascending sort of month keys (pandas sorts group keys). -/
def sortAsc (l : List Int) : List Int := l.foldr insertAsc []

/-- The month key of a row's bill date (`strftime('%Y-%m')`, modelled by the
absolute year-month index); NaT gives none and is dropped by groupby. -/
def monthOf (r : NormExpRow) : Option Int := (r.bill_date).map PyDate.ym

/-- `df[df[p]].groupby('month')['amount'].sum().to_dict()`: month-keyed
amount totals over the rows satisfying `p`, NaT months dropped, keys
ascending. -/
def groupMonthSum (p : NormExpRow → Bool) (rows : List NormExpRow) : List (Int × ℚ) :=
  let keyed := (rows.filter p).filterMap (fun r => (monthOf r).map (fun m => (m, r.amount)))
  let keys := sortAsc (keyed.map Prod.fst).dedup
  keys.map (fun k => (k, ((keyed.filter (fun kv => kv.1 == k)).map Prod.snd).sum))

/-- `dict.get(month, 0)` on a month-keyed total table. -/
def lookupD (l : List (Int × ℚ)) (k : Int) (d : ℚ) : ℚ :=
  match l.find? (fun kv => kv.1 == k) with
  | some kv => kv.2
  | Option.none => d

/-- One month's entry of the `monthly_expenses` dict (lines 70-82). -/
structure MonthlyExp where
  rent : ℚ
  utilities : ℚ
  electricity : ℚ
  water : ℚ
  ingredients : ℚ
  marketing : ℚ
  total : ℚ
deriving DecidableEq, Repr

/-- Lines 52-84 of `process_expenses_data`: per-category monthly totals, the
union of their month keys in ascending order, and the per-month breakdown. -/
def monthlyExpenses (rows : List NormExpRow) : List (Int × MonthlyExp) :=
  let mRent := groupMonthSum isRent rows
  let mElec := groupMonthSum isElectricity rows
  let mWater := groupMonthSum isWater rows
  let mIngr := groupMonthSum isIngredients rows
  let mMktg := groupMonthSum isMarketing rows
  let allMonths := sortAsc ((mRent ++ mElec ++ mWater ++ mIngr ++ mMktg).map Prod.fst).dedup
  allMonths.map (fun m =>
    let rent := lookupD mRent m 0
    let elec := lookupD mElec m 0
    let water := lookupD mWater m 0
    let ingr := lookupD mIngr m 0
    let mktg := lookupD mMktg m 0
    let utilities := elec + water
    (m, { rent := rent
          utilities := utilities
          electricity := elec
          water := water
          ingredients := ingr
          marketing := mktg
          total := rent + utilities + ingr + mktg }))

/-- The metrics dict returned by `process_expenses_data` on nonempty input. -/
structure ExpSummary where
  categorized_expenses : CategorizedExpenses
  monthly_expenses : List (Int × MonthlyExp)
deriving DecidableEq, Repr

/-- `DataProcessor.process_expenses_data`: a None or empty frame returns an
empty frame and the empty metrics dict (modelled by `Option.none`);
otherwise the rows are normalized and both summaries computed. -/
def process_expenses_data : Option (List ExpRow) → List NormExpRow × Option ExpSummary
  | Option.none => ([], Option.none)
  | some [] => ([], Option.none)
  | some (r :: rs) =>
    let rows := (r :: rs).map normalizeExpRow
    (rows, some { categorized_expenses := categorizedExpenses rows
                  monthly_expenses := monthlyExpenses rows })

example :
    sumCategoryTotals (categorizedExpenses
      [normalizeExpRow { type := "Bakery", amount := PyVal.num 5,
                         bill_date := PyVal.none, due_date := PyVal.none }]) = 0 := by
  simp +decide [sumCategoryTotals, categorizedExpenses, sumWhere, normalizeExpRow, toNumericFill0,
    isRent, isElectricity, isWater, isIngredients, isOther, inRentElecWater]

example :
    sumCategoryTotals (categorizedExpenses
      [normalizeExpRow { type := "Rent", amount := PyVal.num 5,
                         bill_date := PyVal.none, due_date := PyVal.none },
       normalizeExpRow { type := "Bakery - Flour", amount := PyVal.num 7,
                         bill_date := PyVal.none, due_date := PyVal.none },
       normalizeExpRow { type := "Marketing", amount := PyVal.num 2,
                         bill_date := PyVal.none, due_date := PyVal.none }]) = 14 := by
  simp +decide [sumCategoryTotals, categorizedExpenses, sumWhere, normalizeExpRow, toNumericFill0,
    isRent, isElectricity, isWater, isIngredients, isOther, inRentElecWater]
  norm_num

/-! ### Sales processing (`DataProcessor.process_sales_data`) -/

/-- A raw daily-sales record: `date`, the `product_sales` payload, and the
`sale_amount` cell (meaningful only when the frame has that column). -/
structure SalesRow where
  date : PyVal
  product_sales : PyVal
  sale_amount : PyVal
deriving DecidableEq, Repr

/-- A sales frame: its rows plus whether the `sale_amount` column exists.
Column presence is a property of the whole frame, not of one row. -/
structure SalesDF where
  hasSaleAmount : Bool
  rows : List SalesRow
deriving DecidableEq, Repr

/-- All-digit decimal string tail, as Python `int` requires. -/
def pyNatDigits (cs : List Char) : Option Nat :=
  match cs with
  | [] => Option.none
  | c :: cs2 =>
    if c.isDigit then
      let (n, rest) := parseDigitsAux (c :: cs2) 0
      if rest.isEmpty then some n else Option.none
    else Option.none

/-- Python `int(s)` on a decimal string: optional sign then digits, whole
string consumed (whitespace/underscore tolerance not modelled; no claim
exercises it). -/
def pyIntOfString (s : String) : Option Int :=
  match s.toList with
  | [] => Option.none
  | c :: cs =>
    if c = Char.ofNat 45 then (pyNatDigits cs).map (fun n => -(n : Int))
    else if c = Char.ofNat 43 then (pyNatDigits cs).map (fun n => (n : Int))
    else (pyNatDigits (c :: cs)).map (fun n => (n : Int))

/-- `products_df.set_index('product_id')['price'].to_dict().get(pid, 0.0)`:
with a duplicate product id the last row wins. -/
def priceLookup (products : List (Int × ℚ)) (pid : Int) : ℚ :=
  match products.reverse.find? (fun p => p.1 == pid) with
  | some p => p.2
  | Option.none => 0

/-- `compute_revenue` from `process_sales_data` (lines 145-153): sum of
`qty * price_lookup.get(pid, 0.0)` over the entries whose key parses as an
integer; unparseable keys are skipped. -/
def compute_revenue (products : List (Int × ℚ)) (d : List (String × Int)) : ℚ :=
  d.foldl (fun rev kv =>
    match pyIntOfString kv.1 with
    | some pid => rev + (kv.2 : ℚ) * priceLookup products pid
    | Option.none => rev) 0

/-- The value of a parsed payload when it is a mapping; `Option.none` models
the exception `sum(d.values())` would raise on a non-mapping. -/
def dictOf : PyVal → Option (List (String × Int))
  | PyVal.dict m => some m
  | _ => Option.none

/-- An IEEE float result: finite, infinite, or NaN. -/
inductive PFloat where
  | fin (q : ℚ)
  | inf
  | ninf
  | nan
deriving DecidableEq, Repr

/-- IEEE float division of finite operands: a nonzero numerator over zero
gives a signed infinity, `0/0` gives NaN. -/
def fdiv (a b : ℚ) : PFloat :=
  if b = 0 then (if 0 < a then PFloat.inf else if a < 0 then PFloat.ninf else PFloat.nan)
  else PFloat.fin (a / b)

/-- `.replace([np.inf, -np.inf], 0)` on one cell. -/
def replaceInf0 : PFloat → PFloat
  | PFloat.inf => PFloat.fin 0
  | PFloat.ninf => PFloat.fin 0
  | x => x

/-- `.fillna(0)` on one float cell. -/
def fillna0 : PFloat → PFloat
  | PFloat.nan => PFloat.fin 0
  | x => x

/-- A sales record after steps 1-5 of `process_sales_data`. -/
structure ProcSalesRow where
  date : Option PyDate
  product_sales : List (String × Int)
  items_sold : Int
  daily_sales : ℚ
  avg_price_per_item : PFloat
deriving DecidableEq, Repr

/-- Step 4 of `process_sales_data` (lines 134-158), per cell: the branch is
chosen once for the whole frame — on column presence and on whether a
products frame was passed — and applied to every row. -/
def dailySalesOf (hasSaleAmount : Bool) (products : Option (List (Int × ℚ)))
    (saleAmount : PyVal) (d : List (String × Int)) (items : Int) : ℚ :=
  if hasSaleAmount then toNumericFill0 saleAmount
  else
    match products with
    | some ps => compute_revenue ps d
    | Option.none => (items : ℚ)

/-- Steps 1-5 of `process_sales_data` on one row: parse the payload, total
the quantities, resolve revenue, derive `avg_price_per_item` through the
`replace(inf, 0).fillna(0)` chain.  `Option.none` models the exception a
non-mapping parse result would raise at `sum(d.values())`. -/
def processSalesRow (hasSaleAmount : Bool) (products : Option (List (Int × ℚ)))
    (r : SalesRow) : Option ProcSalesRow :=
  match dictOf (parse_product_sales r.product_sales) with
  | Option.none => Option.none
  | some d =>
    let items : Int := (d.map Prod.snd).sum
    let daily := dailySalesOf hasSaleAmount products r.sale_amount d items
    some { date := toDatetime r.date
           product_sales := d
           items_sold := items
           daily_sales := daily
           avg_price_per_item := fillna0 (replaceInf0 (fdiv daily (items : ℚ))) }

/-- One row of the monthly aggregate (step 7), keyed by the absolute
year-month index. -/
structure MonthlyAgg where
  ym : Int
  total_sales : ℚ
  average_daily_sales : PFloat
  transaction_count : Nat
  total_items_sold : Int
deriving DecidableEq, Repr

/-- `resample('ME', on='date').agg(...)`: NaT rows are dropped, and one
bucket is produced for every calendar month from the earliest to the latest
date present, gap months included (sum 0, mean NaN, count 0). -/
def resampleMonthly (rows : List ProcSalesRow) : List MonthlyAgg :=
  let dated := rows.filterMap (fun r => (r.date).map (fun d => (d.ym, r)))
  match dated with
  | [] => []
  | x :: _ =>
    let yms := dated.map Prod.fst
    let lo := yms.foldl min x.1
    let hi := yms.foldl max x.1
    (List.range (hi - lo + 1).toNat).map (fun i =>
      let m := lo + (i : Int)
      let bucket := (dated.filter (fun p => p.1 == m)).map Prod.snd
      { ym := m
        total_sales := (bucket.map ProcSalesRow.daily_sales).sum
        average_daily_sales :=
          match bucket with
          | [] => PFloat.nan
          | _ => PFloat.fin ((bucket.map ProcSalesRow.daily_sales).sum / (bucket.length : ℚ))
        transaction_count := bucket.length
        total_items_sold := (bucket.map ProcSalesRow.items_sold).sum })

/-- First row attaining the maximal value of `f` (`Series.idxmax`). -/
def idxmaxBy {α : Type} (f : α → ℚ) : List α → Option α
  | [] => Option.none
  | x :: xs => some (xs.foldl (fun best y => if f y > f best then y else best) x)

/-- First row attaining the minimal value of `f` (`Series.idxmin`). -/
def idxminBy {α : Type} (f : α → ℚ) : List α → Option α
  | [] => Option.none
  | x :: xs => some (xs.foldl (fun best y => if f y < f best then y else best) x)

/-- The `monthly_metrics` dict (step 8 of `process_sales_data`). -/
structure SalesMetrics where
  total_sales : ℚ
  average_monthly_sales : PFloat
  highest_sales_month : Option Int
  lowest_sales_month : Option Int
deriving DecidableEq, Repr

/-- `DataProcessor.process_sales_data`: a None or empty frame returns an
empty aggregate and the empty metrics dict; otherwise every row is
processed (an escaping exception on any row is `Option.none` at this rank)
and the monthly aggregate and metrics are built. -/
def process_sales_data (sales : Option SalesDF) (products : Option (List (Int × ℚ))) :
    Option (List MonthlyAgg × Option SalesMetrics) :=
  match sales with
  | Option.none => some ([], Option.none)
  | some df =>
    match df.rows with
    | [] => some ([], Option.none)
    | r :: rs =>
      match (r :: rs).mapM (processSalesRow df.hasSaleAmount products) with
      | Option.none => Option.none
      | some procRows =>
        let monthly := resampleMonthly procRows
        some (monthly, some
          { total_sales := (monthly.map MonthlyAgg.total_sales).sum
            average_monthly_sales :=
              match monthly with
              | [] => PFloat.nan
              | _ =>
                PFloat.fin ((monthly.map MonthlyAgg.total_sales).sum / (monthly.length : ℚ))
            highest_sales_month := (idxmaxBy MonthlyAgg.total_sales monthly).map MonthlyAgg.ym
            lowest_sales_month := (idxminBy MonthlyAgg.total_sales monthly).map MonthlyAgg.ym })

/-- The revenue rule exactly as the claim words it: a per-record three-tier
fallback in which a record lacking a direct revenue figure falls through to
the price lookup and then to the item count.  Written from the claim text,
to be compared with `dailySalesOf` (the source behaviour). -/
def claimedPerRecordRevenue (products : Option (List (Int × ℚ))) (r : SalesRow) : ℚ :=
  let d := match dictOf (parse_product_sales r.product_sales) with
    | some m => m
    | Option.none => []
  match r.sale_amount with
  | PyVal.num q => q
  | _ =>
    match products with
    | some ps => compute_revenue ps d
    | Option.none => ((d.map Prod.snd).sum : ℚ)

example :
    (processSalesRow true (some [(1, 5)])
      { date := PyVal.none, product_sales := PyVal.dict [("1", 2)],
        sale_amount := PyVal.none }).map ProcSalesRow.daily_sales = some 0 := by
  decide

example :
    claimedPerRecordRevenue (some [(1, 5)])
      { date := PyVal.none, product_sales := PyVal.dict [("1", 2)],
        sale_amount := PyVal.none } = 10 := by
  simp +decide [claimedPerRecordRevenue, dictOf, parse_product_sales, compute_revenue,
    pyIntOfString, pyNatDigits, parseDigitsAux, priceLookup]
  norm_num

/-! ### Monthly summary, employees, products
(`process_monthly_summary`, `process_employees_data`, `process_products_data`) -/

/-- A raw monthly-summary record. -/
structure MonthlySummaryRow where
  month : String
  total_sales : PyVal
deriving DecidableEq, Repr

/-- A monthly-summary record after coercion (`total_sales` numeric,
`month` already textual so `astype(str)` is the identity). -/
structure NormMonthlyRow where
  month : String
  total_sales : ℚ
deriving DecidableEq, Repr

/-- The metrics dict of `process_monthly_summary`. -/
structure MonthlySummaryMetrics where
  total_sales : ℚ
  average_monthly_sales : PFloat
  best_month : Option String
  worst_month : Option String
  sales_trend : String
deriving DecidableEq, Repr

/-- `DataProcessor.process_monthly_summary`: None/empty input returns an
empty frame and empty metrics; otherwise coercion plus total/mean,
first-occurrence best and worst months, and the Upward/Downward/Neutral
trend rule of line 217. -/
def process_monthly_summary :
    Option (List MonthlySummaryRow) → List NormMonthlyRow × Option MonthlySummaryMetrics
  | Option.none => ([], Option.none)
  | some [] => ([], Option.none)
  | some (r :: rs) =>
    let norm : MonthlySummaryRow → NormMonthlyRow :=
      fun x => { month := x.month, total_sales := toNumericFill0 x.total_sales }
    let rows := (r :: rs).map norm
    (rows, some
      { total_sales := (rows.map NormMonthlyRow.total_sales).sum
        average_monthly_sales :=
          PFloat.fin ((rows.map NormMonthlyRow.total_sales).sum / (rows.length : ℚ))
        best_month := (idxmaxBy NormMonthlyRow.total_sales rows).map NormMonthlyRow.month
        worst_month := (idxminBy NormMonthlyRow.total_sales rows).map NormMonthlyRow.month
        sales_trend :=
          if 1 < rows.length then
            if (rows.getLastD (norm r)).total_sales > (norm r).total_sales
            then "Upward" else "Downward"
          else "Neutral" })

/-- A raw employee record (only active employees are extracted). -/
structure EmpRow where
  name : String
  salary : PyVal
  hire_date : PyVal
deriving DecidableEq, Repr

/-- An employee record after coercion. -/
structure NormEmpRow where
  name : String
  salary : ℚ
  hire_date : Option PyDate
deriving DecidableEq, Repr

/-- The `employee_metrics` dict of `process_employees_data`. -/
structure EmpMetrics where
  total_salary : ℚ
  average_salary : PFloat
  active_employees : Nat
  top_performer : String
deriving DecidableEq, Repr

/-- Month-keyed totals of an already keyed list, NaT-free, keys ascending
(`groupby(month)[col].sum().to_dict()`). -/
def groupYmSum (keyed : List (Int × ℚ)) : List (Int × ℚ) :=
  let keys := sortAsc (keyed.map Prod.fst).dedup
  keys.map (fun k => (k, ((keyed.filter (fun kv => kv.1 == k)).map Prod.snd).sum))

/-- The dict returned by `process_employees_data` on nonempty input. -/
structure EmpSummary where
  employee_metrics : EmpMetrics
  monthly_salaries : List (Int × ℚ)
deriving DecidableEq, Repr

/-- `DataProcessor.process_employees_data`: None/empty input returns an
empty frame and empty metrics; otherwise salary/hire-date coercion, the
totals and the top performer by first maximal salary, and hire-month
salary totals with NaT months dropped. -/
def process_employees_data : Option (List EmpRow) → List NormEmpRow × Option EmpSummary
  | Option.none => ([], Option.none)
  | some [] => ([], Option.none)
  | some (r :: rs) =>
    let rows := (r :: rs).map (fun x =>
      { name := x.name, salary := toNumericFill0 x.salary,
        hire_date := toDatetime x.hire_date : NormEmpRow })
    let totalSalary := (rows.map NormEmpRow.salary).sum
    (rows, some
      { employee_metrics :=
          { total_salary := totalSalary
            average_salary := PFloat.fin (totalSalary / (rows.length : ℚ))
            active_employees := rows.length
            top_performer := ((idxmaxBy NormEmpRow.salary rows).map NormEmpRow.name).getD "N/A" }
        monthly_salaries :=
          groupYmSum (rows.filterMap (fun x => (x.hire_date).map (fun d => (d.ym, x.salary)))) })

/-- A raw product record. -/
structure ProdRow where
  product_id : Int
  price : PyVal
  category : String
deriving DecidableEq, Repr

/-- A products frame: rows plus whether the `category` column exists. -/
structure ProdDF where
  hasCategory : Bool
  rows : List ProdRow
deriving DecidableEq, Repr

/-- A product record after `process_products_data`: price coerced, category
defaulted, `cost = price * 0.7` and `profit_per_item = price - cost`. -/
structure NormProdRow where
  product_id : Int
  price : ℚ
  category : String
  cost : ℚ
  profit_per_item : ℚ
deriving DecidableEq, Repr

/-- The metrics dict of `process_products_data`. -/
structure ProdMetrics where
  total_products : Nat
  average_price : PFloat
  average_profit_per_item : PFloat
deriving DecidableEq, Repr

/-- `DataProcessor.process_products_data`: None/empty input returns an empty
frame and empty metrics; otherwise price coercion, the fixed 0.7 cost
margin, and count/mean metrics. -/
def process_products_data : Option ProdDF → List NormProdRow × Option ProdMetrics
  | Option.none => ([], Option.none)
  | some df =>
    match df.rows with
    | [] => ([], Option.none)
    | r :: rs =>
      let rows := (r :: rs).map (fun x =>
        let p := toNumericFill0 x.price
        { product_id := x.product_id
          price := p
          category := if df.hasCategory then x.category else "Unknown"
          cost := p * (7 / 10)
          profit_per_item := p - p * (7 / 10) : NormProdRow })
      (rows, some
        { total_products := rows.length
          average_price := PFloat.fin ((rows.map NormProdRow.price).sum / (rows.length : ℚ))
          average_profit_per_item :=
            PFloat.fin ((rows.map NormProdRow.profit_per_item).sum / (rows.length : ℚ)) })

/-! ### Cash flow, ratios, runway (`pipeline.run_once`) -/

/-- One row of the cash-flow series (spec §3, CashFlowRow), month keyed by
the absolute year-month index. -/
structure CashFlowRow where
  ym : Int
  cash_in : ℚ
  cash_out : ℚ
  net_cash : ℚ
  cum_cash : ℚ
deriving DecidableEq, Repr

/-- The rows of the cash-flow series from a running cumulative total `acc`:
per inflow month, outflow is looked up with default 0, net cash is the
difference, and the cumulative column extends the running total. -/
def cash_flow_aux (outflow : List (Int × ℚ)) (acc : ℚ) : List (Int × ℚ) → List CashFlowRow
  | [] => []
  | p :: ps =>
    let out := lookupD outflow p.1 0
    let net := p.2 - out
    { ym := p.1, cash_in := p.2, cash_out := out, net_cash := net, cum_cash := acc + net }
      :: cash_flow_aux outflow (acc + net) ps

/-- Modelled from the spec: `DataProcessor.cash_flow` is called by
`pipeline.run_once` (pipeline/__init__.py line 32) but is not defined
anywhere under the repository sources.  Spec §4.4: one row per month
present in the inflow (monthly sales) aggregate; outflow is reindexed onto
the inflow's month set with months absent from expenses as zero; net cash
per row; cumulative cash as a running total over rows in month-ascending
order; expense-only months produce no row. -/
def cash_flow (inflow outflow : List (Int × ℚ)) : List CashFlowRow :=
  cash_flow_aux outflow 0 inflow

/-- The runway estimate assembled by `run_once`
(pipeline/__init__.py lines 55-57): the last row's cumulative cash over the
negation of its net cash when that net cash is negative, else the sentinel
99.  `Option.none` models the IndexError `iloc[-1]` raises on an empty
frame. -/
def burn_rate_months (cf : List CashFlowRow) : Option ℚ :=
  match cf.getLast? with
  | Option.none => Option.none
  | some r => some (if r.net_cash < 0 then r.cum_cash / (-r.net_cash) else 99)

/-- The caller-supplied balance-sheet snapshot (hardcoded placeholders in
`run_once`). -/
structure BalanceSheet where
  current_assets : ℚ
  current_liab : ℚ
  total_debt : ℚ
  equity : ℚ
  inventory : ℚ
deriving DecidableEq, Repr

/-- The ratio set (spec §3, RatioSet). -/
structure RatioSet where
  gross_margin : ℚ
  current_ratio : ℚ
  quick_ratio : ℚ
  debt_to_equity : ℚ
  dscr : ℚ
deriving DecidableEq, Repr

/-- Modelled from the spec: `DataProcessor.financial_ratios` is called by
`pipeline.run_once` (pipeline/__init__.py line 38) but is not defined
anywhere under the repository sources.  Spec §4.5 gives the formulas, with
every denominator other than gross margin's floored at 1. -/
def financial_ratios (total_sales total_cogs other_expenses total_salary : ℚ)
    (bs : BalanceSheet) : RatioSet :=
  { gross_margin := (total_sales - total_cogs) / total_sales
    current_ratio := bs.current_assets / max 1 bs.current_liab
    quick_ratio := (bs.current_assets - bs.inventory) / max 1 bs.current_liab
    debt_to_equity := bs.total_debt / max 1 bs.equity
    dscr := total_sales / max 1 (other_expenses + total_salary) }

/-! ### Helper lemmas -/

/-- A filter-sum over a cons adds the head's amount exactly when the head
satisfies the predicate. -/
theorem sumWhere_cons (p : NormExpRow → Bool) (r : NormExpRow) (t : List NormExpRow) :
    sumWhere p (r :: t) = (if p r then r.amount else 0) + sumWhere p t := by
  by_cases h : p r <;> simp [sumWhere, h]

/-- A list with a prefix `a ++ b` in particular has the prefix `a`. -/
theorem isPrefixList_append (a b l : List Char) :
    isPrefixList (a ++ b) l = true → isPrefixList a l = true := by
  induction a generalizing l with
  | nil => simp [isPrefixList]
  | cons x xs ih =>
    cases l with
    | nil => simp [isPrefixList]
    | cons y ys =>
      simp only [List.cons_append, isPrefixList, Bool.and_eq_true]
      exact fun h => ⟨h.1, ih ys h.2⟩

/-- An infix `a ++ b` yields the infix `a`. -/
theorem isInfixList_append (a b h : List Char) :
    isInfixList (a ++ b) h = true → isInfixList a h = true := by
  simp only [isInfixList, List.any_eq_true, List.mem_range]
  rintro ⟨i, hi, hp⟩
  exact ⟨i, hi, isPrefixList_append a b _ hp⟩

/-- A type containing the COGS prefix "Bakery - " in particular contains
"Bakery" (both case-insensitively). -/
theorem containsCI_bakery_of_dash (s : String) :
    containsCI s "Bakery - " = true → containsCI s "Bakery" = true := by
  intro hc
  have hsplit : lowerChars "Bakery - " = lowerChars "Bakery" ++ (" - ").toList := by decide
  unfold containsCI at hc ⊢
  rw [hsplit] at hc
  exact isInfixList_append _ _ _ hc

/-- One expense row falls in exactly one flat category, provided its type
does not contain "Bakery" without the full "Bakery - " prefix. -/
theorem expense_row_partition (r : NormExpRow)
    (hba : containsCI r.type "Bakery" = true → containsCI r.type "Bakery - " = true) :
    (if isRent r then r.amount else 0) + (if isElectricity r then r.amount else 0) +
      (if isWater r then r.amount else 0) + (if isIngredients r then r.amount else 0) +
      (if isOther r then r.amount else 0) = r.amount := by
  by_cases h1 : r.type = "Rent"
  · simp +decide [isRent, isElectricity, isWater, isIngredients, isOther, inRentElecWater,
      containsCI, lowerChars, h1]
  by_cases h2 : r.type = "Electricity"
  · simp +decide [isRent, isElectricity, isWater, isIngredients, isOther, inRentElecWater,
      containsCI, lowerChars, h2]
  by_cases h3 : r.type = "Water"
  · simp +decide [isRent, isElectricity, isWater, isIngredients, isOther, inRentElecWater,
      containsCI, lowerChars, h3]
  by_cases h4 : containsCI r.type "Bakery - " = true
  · have h5 : containsCI r.type "Bakery" = true := containsCI_bakery_of_dash r.type h4
    simp [isRent, isElectricity, isWater, isIngredients, isOther, inRentElecWater,
      h1, h2, h3, h4, h5]
  · have h5 : containsCI r.type "Bakery" = false := by
      cases h6 : containsCI r.type "Bakery" with
      | false => rfl
      | true => exact absurd (hba h6) h4
    simp [isRent, isElectricity, isWater, isIngredients, isOther, inRentElecWater,
      h1, h2, h3, h4, h5]

/-! ### The claims -/

/-- C3: product_sales normalization accepts a mapping as-is, parses a string
as strict JSON, retries after single-to-double quote replacement, falls back
to the empty mapping, and in particular the single-quoted string
"\x7b'12': 3, '7': 1\x7d" normalizes to the mapping \x7b"12": 3, "7": 1\x7d. -/
theorem C3_product_sales_parse_policy :
    (∀ m, parse_product_sales (PyVal.dict m) = PyVal.dict m) ∧
    (∀ s j, jsonLoads s = some j → parse_product_sales (PyVal.str s) = j) ∧
    (∀ s j, jsonLoads s = Option.none → jsonLoads (replaceSquote s) = some j →
      parse_product_sales (PyVal.str s) = j) ∧
    (∀ s, jsonLoads s = Option.none → jsonLoads (replaceSquote s) = Option.none →
      parse_product_sales (PyVal.str s) = PyVal.dict []) ∧
    parse_product_sales (PyVal.str "\x7b\x2712\x27: 3, \x277\x27: 1\x7d") =
      PyVal.dict [("12", 3), ("7", 1)] := by
  refine ⟨fun m => rfl, ?_, ?_, ?_, by decide⟩
  · intro s j h; simp [parse_product_sales, h]
  · intro s j h1 h2; simp [parse_product_sales, h1, h2]
  · intro s h1 h2; simp [parse_product_sales, h1, h2]

/-- Witness for C3 at a concrete single-quoted payload. -/
theorem C3_product_sales_parse_policy_witness :
    jsonLoads "\x7b\x277\x27: 1\x7d" = Option.none ∧
    jsonLoads (replaceSquote "\x7b\x277\x27: 1\x7d") = some (PyVal.dict [("7", 1)]) ∧
    parse_product_sales (PyVal.str "\x7b\x277\x27: 1\x7d") = PyVal.dict [("7", 1)] :=
  ⟨by decide, by decide,
    C3_product_sales_parse_policy.2.2.1 _ _ (by decide) (by decide)⟩

/-- C9: the record normalizer is idempotent — renormalizing the output of
the expense normalization changes nothing, and the payload parser is the
identity on records whose product_sales is already a mapping. -/
theorem C9_normalizer_idempotent :
    (∀ r : ExpRow, normalizeExpRow (injectNorm (normalizeExpRow r)) = normalizeExpRow r) ∧
    (∀ m, parse_product_sales (parse_product_sales (PyVal.dict m)) =
      parse_product_sales (PyVal.dict m)) := by
  constructor
  · intro r
    cases hb : toDatetime r.bill_date <;> cases hd : toDatetime r.due_date <;>
      simp only [normalizeExpRow, injectNorm, hb, hd] <;>
      simp [toDatetime, toNumericFill0, daysUntilDue]
  · intro m; rfl

/-- C8: every processing operation maps a None or empty record set to an
empty aggregate and an empty metrics mapping, raising nothing (the sales
processor's `some` result is its no-exception guarantee). -/
theorem C8_empty_record_sets :
    process_expenses_data Option.none = ([], Option.none) ∧
    process_expenses_data (some []) = ([], Option.none) ∧
    (∀ products, process_sales_data Option.none products = some ([], Option.none)) ∧
    (∀ b products, process_sales_data (some { hasSaleAmount := b, rows := [] }) products
      = some ([], Option.none)) ∧
    process_monthly_summary Option.none = ([], Option.none) ∧
    process_monthly_summary (some []) = ([], Option.none) ∧
    process_employees_data Option.none = ([], Option.none) ∧
    process_employees_data (some []) = ([], Option.none) ∧
    process_products_data Option.none = ([], Option.none) ∧
    (∀ b, process_products_data (some { hasCategory := b, rows := [] }) = ([], Option.none)) :=
  ⟨rfl, rfl, fun _ => rfl, fun _ _ => rfl, rfl, rfl, rfl, rfl, rfl, fun _ => rfl⟩

/-- C2 counterexample: the one-record set with type "Bakery" and amount 5
has non-negative amounts, yet its flat category totals sum to 0, not 5 — a
type containing "Bakery" without the full "Bakery - " prefix is excluded
from `other` without qualifying as ingredients. -/
theorem C2_category_totals_counterexample :
    (0 : ℚ) ≤ ({ type := "Bakery", amount := 5, bill_date := Option.none,
                 due_date := Option.none, days_until_due := 0,
                 is_utility := false } : NormExpRow).amount ∧
    sumCategoryTotals (categorizedExpenses
        [{ type := "Bakery", amount := 5, bill_date := Option.none,
           due_date := Option.none, days_until_due := 0, is_utility := false }])
      ≠ sumAmounts
        [{ type := "Bakery", amount := 5, bill_date := Option.none,
           due_date := Option.none, days_until_due := 0, is_utility := false }] := by
  constructor
  · norm_num
  · simp +decide [sumCategoryTotals, categorizedExpenses, sumWhere, sumAmounts,
      isRent, isElectricity, isWater, isIngredients, isOther, inRentElecWater]

/-- C2 (amended): for every expense record set with non-negative amounts in
which every type containing "Bakery" also contains the full COGS prefix
"Bakery - ", the flat category totals sum to the raw amount total — on such
sets the rules are exhaustive and mutually exclusive, with the COGS-prefix
check taking priority.  (Types containing "Bakery" without " - " fall in no
category, which is what the counterexample exhibits.) -/
theorem C2_category_totals_amended (rows : List NormExpRow)
    (hnn : ∀ r ∈ rows, 0 ≤ r.amount)
    (hba : ∀ r ∈ rows, containsCI r.type "Bakery" = true →
      containsCI r.type "Bakery - " = true) :
    sumCategoryTotals (categorizedExpenses rows) = sumAmounts rows := by
  revert hnn hba
  induction rows with
  | nil =>
    intro _ _
    simp [sumCategoryTotals, categorizedExpenses, sumWhere, sumAmounts]
  | cons r t ih =>
    intro hnn hba
    have hr := expense_row_partition r (hba r (List.mem_cons_self r t))
    have ht := ih (fun x hx => hnn x (List.mem_cons_of_mem r hx))
      (fun x hx => hba x (List.mem_cons_of_mem r hx))
    have hAmt : sumAmounts (r :: t) = r.amount + sumAmounts t := by simp [sumAmounts]
    simp only [sumCategoryTotals, categorizedExpenses] at ht ⊢
    rw [sumWhere_cons, sumWhere_cons, sumWhere_cons, sumWhere_cons, sumWhere_cons, hAmt]
    linarith [hr, ht]

/-- Witness for the amended C2 on a concrete three-record set. -/
theorem C2_category_totals_amended_witness :
    sumCategoryTotals (categorizedExpenses
        [{ type := "Rent", amount := 5, bill_date := Option.none,
           due_date := Option.none, days_until_due := 0, is_utility := true },
         { type := "Bakery - Flour", amount := 7, bill_date := Option.none,
           due_date := Option.none, days_until_due := 0, is_utility := false },
         { type := "Marketing", amount := 2, bill_date := Option.none,
           due_date := Option.none, days_until_due := 0, is_utility := true }])
      = sumAmounts
        [{ type := "Rent", amount := 5, bill_date := Option.none,
           due_date := Option.none, days_until_due := 0, is_utility := true },
         { type := "Bakery - Flour", amount := 7, bill_date := Option.none,
           due_date := Option.none, days_until_due := 0, is_utility := false },
         { type := "Marketing", amount := 2, bill_date := Option.none,
           due_date := Option.none, days_until_due := 0, is_utility := true }] :=
  C2_category_totals_amended _ (by decide) (by decide)

/-- C1 counterexample: with the sale_amount column present but the record's
own value missing (NULL), and a product price lookup available, the code
resolves revenue 0 (coercion fill) while the claimed per-record fallback
resolves 2 × 5 = 10 through the lookup. -/
theorem C1_revenue_fallback_counterexample :
    (processSalesRow true (some [(1, 5)])
        { date := PyVal.none, product_sales := PyVal.dict [("1", 2)],
          sale_amount := PyVal.none }).map ProcSalesRow.daily_sales = some 0 ∧
    claimedPerRecordRevenue (some [(1, 5)])
        { date := PyVal.none, product_sales := PyVal.dict [("1", 2)],
          sale_amount := PyVal.none } = 10 ∧
    (0 : ℚ) ≠ 10 := by
  refine ⟨by decide, ?_, by norm_num⟩
  simp +decide [claimedPerRecordRevenue, dictOf, parse_product_sales, compute_revenue,
    pyIntOfString, pyNatDigits, parseDigitsAux, priceLookup]
  norm_num

/-- C1 (amended): revenue resolution is a record-set-level three-tier
fallback, chosen once for the whole frame: when the sale_amount column is
present every record uses its own sale_amount coerced with missing or
invalid values as 0 (such records do not fall through to lower tiers); else
when a price lookup is available revenue is the quantity-price sum over the
parsed mapping, skipping unparseable product ids; else revenue is the
record's item count. -/
theorem C1_revenue_fallback_amended (hasSA : Bool) (products : Option (List (Int × ℚ)))
    (r : SalesRow) (p : ProcSalesRow) (hp : processSalesRow hasSA products r = some p) :
    (hasSA = true → p.daily_sales = toNumericFill0 r.sale_amount) ∧
    (hasSA = false → ∀ ps, products = some ps →
      p.daily_sales = compute_revenue ps p.product_sales) ∧
    (hasSA = false → products = Option.none → p.daily_sales = (p.items_sold : ℚ)) := by
  cases hd : dictOf (parse_product_sales r.product_sales) with
  | none => simp [processSalesRow, hd] at hp
  | some d =>
    simp only [processSalesRow, hd] at hp
    rw [← Option.some.inj hp]
    refine ⟨fun h1 => ?_, fun h1 ps h2 => ?_, fun h1 h2 => ?_⟩
    · show dailySalesOf hasSA products r.sale_amount d (d.map Prod.snd).sum
        = toNumericFill0 r.sale_amount
      unfold dailySalesOf
      rw [if_pos h1]
    · show dailySalesOf hasSA products r.sale_amount d (d.map Prod.snd).sum
        = compute_revenue ps d
      unfold dailySalesOf
      rw [if_neg (by simp [h1]), h2]
    · show dailySalesOf hasSA products r.sale_amount d (d.map Prod.snd).sum
        = ((d.map Prod.snd).sum : ℚ)
      unfold dailySalesOf
      rw [if_neg (by simp [h1]), h2]

/-- Witness for the amended C1 on a concrete record (no sale_amount column,
no lookup: revenue falls back to the item count). -/
theorem C1_revenue_fallback_amended_witness :
    ({ date := Option.none, product_sales := [], items_sold := 0, daily_sales := 0,
       avg_price_per_item := PFloat.fin 0 } : ProcSalesRow).daily_sales =
      (({ date := Option.none, product_sales := [], items_sold := 0, daily_sales := 0,
          avg_price_per_item := PFloat.fin 0 } : ProcSalesRow).items_sold : ℚ) :=
  (C1_revenue_fallback_amended false Option.none
    { date := PyVal.none, product_sales := PyVal.dict [], sale_amount := PyVal.none }
    { date := Option.none, product_sales := [], items_sold := 0, daily_sales := 0,
      avg_price_per_item := PFloat.fin 0 }
    (by decide)).2.2 rfl rfl

/-- Whether a month-key list is strictly ascending. -/
def strictAsc : List Int → Bool
  | [] => true
  | [_] => true
  | a :: b :: t => a < b && strictAsc (b :: t)

/-- Cumulative column of the builder: entry k is the running base plus the
net-cash prefix sum of the first k+1 rows. -/
theorem cash_flow_aux_cum (o : List (Int × ℚ)) (acc : ℚ) (l : List (Int × ℚ)) :
    ∀ k (hk : k < (cash_flow_aux o acc l).length),
      ((cash_flow_aux o acc l).get ⟨k, hk⟩).cum_cash
        = acc + (((cash_flow_aux o acc l).take (k + 1)).map CashFlowRow.net_cash).sum := by
  induction l generalizing acc with
  | nil => intro k hk; simp [cash_flow_aux] at hk
  | cons p ps ih =>
    intro k hk
    cases k with
    | zero =>
      have h0 : ((cash_flow_aux o acc (p :: ps)).get ⟨0, hk⟩).cum_cash
          = acc + (p.2 - lookupD o p.1 0) := rfl
      have ht : (cash_flow_aux o acc (p :: ps)).take 1
          = [{ ym := p.1, cash_in := p.2, cash_out := lookupD o p.1 0,
               net_cash := p.2 - lookupD o p.1 0,
               cum_cash := acc + (p.2 - lookupD o p.1 0) }] := rfl
      rw [h0, ht]
      simp
    | succ n =>
      have hk2 : n < (cash_flow_aux o (acc + (p.2 - lookupD o p.1 0)) ps).length := by
        have hk' := hk
        simp only [cash_flow_aux, List.length_cons] at hk'
        exact Nat.lt_of_succ_lt_succ hk'
      have heq : ((cash_flow_aux o acc (p :: ps)).get ⟨n + 1, hk⟩)
          = ((cash_flow_aux o (acc + (p.2 - lookupD o p.1 0)) ps).get ⟨n, hk2⟩) := rfl
      have htake : (cash_flow_aux o acc (p :: ps)).take (n + 1 + 1)
          = { ym := p.1, cash_in := p.2, cash_out := lookupD o p.1 0,
              net_cash := p.2 - lookupD o p.1 0,
              cum_cash := acc + (p.2 - lookupD o p.1 0) }
            :: (cash_flow_aux o (acc + (p.2 - lookupD o p.1 0)) ps).take (n + 1) := rfl
      rw [heq, htake, List.map_cons, List.sum_cons, ih (acc + (p.2 - lookupD o p.1 0)) n hk2]
      ring

/-- Every row of the builder satisfies net = in − out. -/
theorem cash_flow_aux_net (o : List (Int × ℚ)) (acc : ℚ) (l : List (Int × ℚ)) :
    ∀ r ∈ cash_flow_aux o acc l, r.net_cash = r.cash_in - r.cash_out := by
  induction l generalizing acc with
  | nil => intro r hr; simp [cash_flow_aux] at hr
  | cons p ps ih =>
    intro r hr
    rw [show cash_flow_aux o acc (p :: ps)
        = { ym := p.1, cash_in := p.2, cash_out := lookupD o p.1 0,
            net_cash := p.2 - lookupD o p.1 0,
            cum_cash := acc + (p.2 - lookupD o p.1 0) }
          :: cash_flow_aux o (acc + (p.2 - lookupD o p.1 0)) ps from rfl,
      List.mem_cons] at hr
    cases hr with
    | inl h => subst h; rfl
    | inr h => exact ih _ r h

/-- The builder's month column is the inflow's month column. -/
theorem cash_flow_aux_ym (o : List (Int × ℚ)) (acc : ℚ) (l : List (Int × ℚ)) :
    (cash_flow_aux o acc l).map CashFlowRow.ym = l.map Prod.fst := by
  induction l generalizing acc with
  | nil => rfl
  | cons p ps ih => simp only [cash_flow_aux, List.map_cons, ih]

/-- The builder's inflow column is the inflow's value column. -/
theorem cash_flow_aux_cash_in (o : List (Int × ℚ)) (acc : ℚ) (l : List (Int × ℚ)) :
    (cash_flow_aux o acc l).map CashFlowRow.cash_in = l.map Prod.snd := by
  induction l generalizing acc with
  | nil => rfl
  | cons p ps ih => simp only [cash_flow_aux, List.map_cons, ih]

/-- Every row's outflow is the reindexed lookup of its month, default 0. -/
theorem cash_flow_aux_cash_out (o : List (Int × ℚ)) (acc : ℚ) (l : List (Int × ℚ)) :
    ∀ r ∈ cash_flow_aux o acc l, r.cash_out = lookupD o r.ym 0 := by
  induction l generalizing acc with
  | nil => intro r hr; simp [cash_flow_aux] at hr
  | cons p ps ih =>
    intro r hr
    rw [show cash_flow_aux o acc (p :: ps)
        = { ym := p.1, cash_in := p.2, cash_out := lookupD o p.1 0,
            net_cash := p.2 - lookupD o p.1 0,
            cum_cash := acc + (p.2 - lookupD o p.1 0) }
          :: cash_flow_aux o (acc + (p.2 - lookupD o p.1 0)) ps from rfl,
      List.mem_cons] at hr
    cases hr with
    | inl h => subst h; rfl
    | inr h => exact ih _ r h

/-- C4: in every cash-flow series the cumulative column is strictly the
prefix sum of the net-cash column over rows in ascending month order, and
each row's net cash is its inflow minus its outflow. -/
theorem C4_cum_cash_prefix_sum (inflow outflow : List (Int × ℚ))
    (hasc : strictAsc (inflow.map Prod.fst) = true) :
    (∀ k (hk : k < (cash_flow inflow outflow).length),
      ((cash_flow inflow outflow).get ⟨k, hk⟩).cum_cash
        = (((cash_flow inflow outflow).take (k + 1)).map CashFlowRow.net_cash).sum) ∧
    ∀ r ∈ cash_flow inflow outflow, r.net_cash = r.cash_in - r.cash_out := by
  constructor
  · intro k hk
    have h := cash_flow_aux_cum outflow 0 inflow k hk
    simpa [cash_flow] using h
  · exact cash_flow_aux_net outflow 0 inflow

/-- Witness for C4 on the two months of the dummy pipeline (2024-01 and
2024-02 as absolute month indices): the second row's cumulative cash is the
sum of both nets. -/
theorem C4_cum_cash_prefix_sum_witness :
    ((cash_flow [(24289, 12000), (24290, 15000)] [(24289, 9500), (24290, 10300)]).get
        ⟨1, by decide⟩).cum_cash
      = (((cash_flow [(24289, 12000), (24290, 15000)] [(24289, 9500), (24290, 10300)]).take 2).map
          CashFlowRow.net_cash).sum :=
  (C4_cum_cash_prefix_sum [(24289, 12000), (24290, 15000)] [(24289, 9500), (24290, 10300)]
    (by decide)).1 1 (by decide)

/-- C5: the cash-flow series has exactly the inflow's months as its rows in
order (expense-only months produce no row), each row's outflow is the
expense lookup of its month with absent months as 0, and with no expenses
at all every row has zero outflow and net cash equal to its inflow. -/
theorem C5_cash_flow_asymmetric_join (inflow outflow : List (Int × ℚ)) :
    (cash_flow inflow outflow).map CashFlowRow.ym = inflow.map Prod.fst ∧
    (cash_flow inflow outflow).map CashFlowRow.cash_in = inflow.map Prod.snd ∧
    (∀ r ∈ cash_flow inflow outflow, r.cash_out = lookupD outflow r.ym 0) ∧
    (outflow = [] → ∀ r ∈ cash_flow inflow outflow,
      r.cash_out = 0 ∧ r.net_cash = r.cash_in) := by
  refine ⟨cash_flow_aux_ym outflow 0 inflow, cash_flow_aux_cash_in outflow 0 inflow,
    cash_flow_aux_cash_out outflow 0 inflow, ?_⟩
  intro ho r hr
  subst ho
  have h1 := cash_flow_aux_cash_out [] 0 inflow r hr
  have h2 := cash_flow_aux_net [] 0 inflow r hr
  have h3 : lookupD [] r.ym 0 = 0 := rfl
  rw [h3] at h1
  exact ⟨h1, by rw [h2, h1, sub_zero]⟩

/-- Witness for C5: one sales month, no expenses. -/
theorem C5_cash_flow_asymmetric_join_witness :
    (cash_flow [((24289 : Int), (5 : ℚ))] []).map CashFlowRow.ym = [24289] ∧
    ((cash_flow [((24289 : Int), (5 : ℚ))] []).get ⟨0, by decide⟩).cash_out = 0 ∧
    ((cash_flow [((24289 : Int), (5 : ℚ))] []).get ⟨0, by decide⟩).net_cash
      = ((cash_flow [((24289 : Int), (5 : ℚ))] []).get ⟨0, by decide⟩).cash_in := by
  have h := C5_cash_flow_asymmetric_join [((24289 : Int), (5 : ℚ))] []
  have hm := h.2.2.2 rfl ((cash_flow [((24289 : Int), (5 : ℚ))] []).get ⟨0, by decide⟩)
    (List.get_mem _ _ _)
  exact ⟨h.1, hm.1, hm.2⟩

/-- C6: for a non-empty cash-flow series the runway estimate is the last
row's cumulative cash over the negation of its net cash when that net cash
is negative, and the sentinel 99 otherwise. -/
theorem C6_burn_rate_rule (cf : List CashFlowRow) (r : CashFlowRow)
    (hlast : cf.getLast? = some r) :
    (r.net_cash < 0 → burn_rate_months cf = some (r.cum_cash / (-r.net_cash))) ∧
    (0 ≤ r.net_cash → burn_rate_months cf = some 99) := by
  constructor
  · intro h
    simp [burn_rate_months, hlast, h]
  · intro h
    simp [burn_rate_months, hlast, not_lt.mpr h]

/-- Witness for C6: one burning month (net −1, cumulative 5). -/
theorem C6_burn_rate_rule_witness :
    burn_rate_months
        [{ ym := 0, cash_in := 1, cash_out := 2, net_cash := -1, cum_cash := 5 }]
      = some (((5 : ℚ)) / (-(-1 : ℚ))) :=
  (C6_burn_rate_rule
    [{ ym := 0, cash_in := 1, cash_out := 2, net_cash := -1, cum_cash := 5 }]
    { ym := 0, cash_in := 1, cash_out := 2, net_cash := -1, cum_cash := 5 }
    (by decide)).1 (by decide)

/-- C7: every clamped ratio denominator is floored at 1 — the four ratio
formulas hold for all inputs, the floored denominators are positive (so no
division by zero arises), and at zero current liabilities the clamped
denominator 1 is used. -/
theorem C7_ratio_denominators_floored (ts tc oe sal : ℚ) (bs : BalanceSheet) :
    (financial_ratios ts tc oe sal bs).current_ratio
      = bs.current_assets / max 1 bs.current_liab ∧
    (financial_ratios ts tc oe sal bs).quick_ratio
      = (bs.current_assets - bs.inventory) / max 1 bs.current_liab ∧
    (financial_ratios ts tc oe sal bs).debt_to_equity = bs.total_debt / max 1 bs.equity ∧
    (financial_ratios ts tc oe sal bs).dscr = ts / max 1 (oe + sal) ∧
    (0 : ℚ) < max 1 bs.current_liab ∧ (0 : ℚ) < max 1 bs.equity ∧
    (0 : ℚ) < max 1 (oe + sal) ∧
    (bs.current_liab = 0 →
      (financial_ratios ts tc oe sal bs).current_ratio = bs.current_assets ∧
      (financial_ratios ts tc oe sal bs).quick_ratio
        = bs.current_assets - bs.inventory) := by
  refine ⟨rfl, rfl, rfl, rfl,
    lt_of_lt_of_le one_pos (le_max_left _ _),
    lt_of_lt_of_le one_pos (le_max_left _ _),
    lt_of_lt_of_le one_pos (le_max_left _ _), ?_⟩
  intro h
  have hm : max (1 : ℚ) bs.current_liab = 1 := by rw [h]; exact max_eq_left zero_le_one
  constructor
  · show bs.current_assets / max 1 bs.current_liab = bs.current_assets
    rw [hm, div_one]
  · show (bs.current_assets - bs.inventory) / max 1 bs.current_liab
      = bs.current_assets - bs.inventory
    rw [hm, div_one]

/-- Witness for C7 at the pipeline's hardcoded balance sheet with
liabilities zeroed. -/
theorem C7_ratio_denominators_floored_witness :
    (financial_ratios 0 0 0 0
        { current_assets := 85000, current_liab := 0, total_debt := 15000,
          equity := 53000, inventory := 100 }).current_ratio = 85000 ∧
    (financial_ratios 0 0 0 0
        { current_assets := 85000, current_liab := 0, total_debt := 15000,
          equity := 53000, inventory := 100 }).quick_ratio = 85000 - 100 :=
  (C7_ratio_denominators_floored 0 0 0 0
    { current_assets := 85000, current_liab := 0, total_debt := 15000,
      equity := 53000, inventory := 100 }).2.2.2.2.2.2.2 rfl

/-- The replace-fill chain after a float division is always finite. -/
theorem chain_fin (a b : ℚ) : ∃ q, fillna0 (replaceInf0 (fdiv a b)) = PFloat.fin q := by
  unfold fdiv
  split
  · split
    · exact ⟨0, rfl⟩
    · split
      · exact ⟨0, rfl⟩
      · exact ⟨0, rfl⟩
  · exact ⟨a / b, rfl⟩

/-- The replace-fill chain maps any division by zero to finite 0. -/
theorem chain_zero (a b : ℚ) (hb : b = 0) :
    fillna0 (replaceInf0 (fdiv a b)) = PFloat.fin 0 := by
  subst hb
  unfold fdiv
  rw [if_pos rfl]
  split
  · rfl
  · split
    · rfl
    · rfl

/-- C10: avg_price_per_item is a total function of the record — the
replace/fill chain always produces a finite value — and it is 0 whenever
the record's item count is 0 (where the division would be infinite or
undefined). -/
theorem C10_avg_price_per_item_safe (hasSA : Bool) (products : Option (List (Int × ℚ)))
    (r : SalesRow) (p : ProcSalesRow) (hp : processSalesRow hasSA products r = some p) :
    (∃ q, p.avg_price_per_item = PFloat.fin q) ∧
    (p.items_sold = 0 → p.avg_price_per_item = PFloat.fin 0) := by
  cases hd : dictOf (parse_product_sales r.product_sales) with
  | none => simp [processSalesRow, hd] at hp
  | some d =>
    simp only [processSalesRow, hd] at hp
    rw [← Option.some.inj hp]
    constructor
    · exact chain_fin _ _
    · intro h0
      have h0' : (d.map Prod.snd).sum = 0 := h0
      exact chain_zero _ _ (by rw [h0']; exact Int.cast_zero)

/-- Witness for C10 on a record with an empty product mapping. -/
theorem C10_avg_price_per_item_safe_witness :
    ({ date := Option.none, product_sales := [], items_sold := 0, daily_sales := 0,
       avg_price_per_item := PFloat.fin 0 } : ProcSalesRow).avg_price_per_item
      = PFloat.fin 0 :=
  (C10_avg_price_per_item_safe false Option.none
    { date := PyVal.none, product_sales := PyVal.dict [], sale_amount := PyVal.none }
    { date := Option.none, product_sales := [], items_sold := 0, daily_sales := 0,
      avg_price_per_item := PFloat.fin 0 }
    (by decide)).2 (by decide)

end FinAdvisor
